import Mathlib

/-!
Verification of `cvat/apps/analytics_report/report/create.py`
(`JobAnalyticsReportUpdateManager`): the debounced recompute scheduler and
the hierarchical staleness-checked recomputation engine.

Modelling conventions (shallow embedding):
* Times (`datetime`, `timedelta`) are integers (`Time := Int`), in seconds.
  Python `timedelta` floor division `//` is `Int.fdiv`.
* Queue job ids are strings of the form
  "update-analytics-report-task-{id}-{suffix}" /
  "update-analytics-report-project-{id}-{suffix}" where suffix is "initial"
  or a timestamp, plus opaque uuid4 hex ids for on-demand jobs.  Since the
  trailing "-" after the numeric id makes the string encoding injective,
  keys are modelled structurally as `QueueKey` / `RqKey`.
* `timezone.datetime.min` (the decoded timestamp of an "initial" suffix) is
  modelled as `none : Option Time`, ordered below every real timestamp by
  `tsLt`.
* Python `max(iterable, key=f, default=None)` keeps the first maximal
  element; it is modelled by `max_by_timestamp` (a left fold that replaces
  the accumulator only on a strictly greater key).
-/

abbrev Time := Int

/-- Dataseries values produced by a metric's `calculate()` are opaque here;
they are modelled as integers. -/
abbrev Dataseries := Int

/-- Which kind of entity a periodic queue-job id is scoped to: the two
string constants `_QUEUE_JOB_PREFIX_TASK` / `_QUEUE_JOB_PREFIX_PROJECT`. -/
inductive EKind
  | taskK
  | projectK
deriving DecidableEq, Repr

/-- The part of a periodic job id after the entity scope: either the
literal "initial" or an encoded timestamp (`_make_initial_queue_job_id` /
`_make_regular_queue_job_id`). -/
inductive KeySuffix
  | initial
  | ts (t : Time)
deriving DecidableEq, Repr

/-- A periodic (debounced autoupdate) queue job id, structurally:
entity kind + entity id (together the `_make_queue_job_prefix` part) and
the suffix. -/
structure QueueKey where
  kind : EKind
  oid : Nat
  suffix : KeySuffix
deriving DecidableEq, Repr

/-- `_get_timestamp` of `_find_next_job_id`: decode a job id's embedded
timestamp; the "initial" suffix decodes to `timezone.datetime.min`,
modelled as `none`. -/
def get_timestamp : KeySuffix → Option Time
  | .initial => none
  | .ts t => some t

/-- Strict order on decoded timestamps, with `none` (= `datetime.min`)
below every real timestamp. -/
def tsLt : Option Time → Option Time → Bool
  | none, none => false
  | none, some _ => true
  | some _, none => false
  | some a, some b => decide (a < b)

/-- Python `max(jobs, key=_get_timestamp, default=None)`: left fold keeping
the first maximal element. -/
def max_by_timestamp (jobs : List QueueKey) : Option QueueKey :=
  jobs.foldl
    (fun acc k =>
      match acc with
      | none => some k
      | some a => if tsLt (get_timestamp a.suffix) (get_timestamp k.suffix) then some k else some a)
    none

/-- `intervals = max(1, 1 + (now - last_update_time) // delay)` from
`_find_next_job_id` (Python `//` on timedeltas is floor division). -/
def nextIntervals (last now delay : Time) : Time :=
  max 1 (1 + (now - last).fdiv delay)

/-- `next_update_time = last_update_time + delay * intervals` from
`_find_next_job_id`. -/
def next_update_time (last now delay : Time) : Time :=
  last + delay * nextIntervals last now delay

/-- The regular (timestamp-suffixed) queue job id built in the final branch
of `_find_next_job_id`. -/
def nextRegularKey (kind : EKind) (oid : Nat) (last now delay : Time) : QueueKey :=
  ⟨kind, oid, .ts (next_update_time last now delay)⟩

/-- `_find_next_job_id(existing_job_ids, obj, now=now)`.  The entity `obj`
is given by its kind, id and `_get_last_report_time` value; `delay` is
`_get_analytics_check_job_delay()`.  The filter models
`j.startswith(job_id_prefix)` (injective thanks to the trailing "-"). -/
def find_next_job_id (existing_job_ids : List QueueKey) (kind : EKind) (oid : Nat)
    (last_update_time : Option Time) (now delay : Time) : QueueKey :=
  let pfxJobs := existing_job_ids.filter (fun k => decide (k.kind = kind ∧ k.oid = oid))
  let max_job_id := max_by_timestamp pfxJobs
  match last_update_time with
  | none =>
      -- Report has never been computed, is queued, or is being computed
      ⟨kind, oid, .initial⟩
  | some last =>
      match max_job_id with
      | some mk =>
          if tsLt (some now) (get_timestamp mk.suffix) then
            -- Reuse the existing next job
            mk
          else
            -- Add an updating job in the queue in the next time frame
            nextRegularKey kind oid last now delay
      | none => nextRegularKey kind oid last now delay

/-- The `ceil`-based interval count that the spec text states
(`intervals = max(1, ceil((now - lastReportTime) / delay))`).  This
definition follows the spec's words, for comparison with the source's
`nextIntervals`. -/
def ceilDiv (a d : Time) : Time := -((-a).fdiv d)

/-- Target time according to the spec's `ceil` formula (spec wording, not
the source). -/
def spec_target_time (last now delay : Time) : Time :=
  last + delay * max 1 (ceilDiv (now - last) delay)

/-- Payload of `_check_job_analytics`: the keyword arguments
`cvat_job_id`, `cvat_task_id`, `cvat_project_id`. -/
structure Payload where
  cvat_job_id : Option Nat
  cvat_task_id : Option Nat
  cvat_project_id : Option Nat
deriving DecidableEq, Repr

/-- A key in the shared rq queue: either a periodic (debounce) key or a
uuid4-hex on-demand key (modelled as an opaque number). -/
inductive RqKey
  | periodic (k : QueueKey)
  | uuidK (u : Nat)
deriving DecidableEq, Repr

/-- An rq job record: key, scheduled time (`some` for
`scheduler.enqueue_at` jobs, `none` for immediately enqueued ones), the
payload, and the `meta` entries used by the code (`user_id`,
`job_type`). -/
structure RqJob where
  key : RqKey
  sched_time : Option Time
  payload : Payload
  meta_user_id : Option Nat
  meta_job_type : Option String
deriving DecidableEq, Repr

def RQ_CUSTOM_ANALYTICS_CHECK_JOB_TYPE : String := "custom_analytics_check"

/-- Modelled from the spec: the external delayed queue (django_rq /
rq-scheduler) is not part of the sources; per the spec (section 3) it is a
keyed job store that rejects/ignores a second enqueue under an identical
key.  `scheduler.enqueue_at(time, func, ..., job_id=key)` with no meta. -/
def enqueue_at (q : List RqJob) (t : Time) (key : QueueKey) (p : Payload) : List RqJob :=
  if q.any (fun j => decide (j.key = .periodic key)) then q
  else q ++ [⟨.periodic key, some t, p, none, none⟩]

/-- Modelled from the spec: `scheduler.get_jobs(until=T)` lists the
scheduler's pending jobs with scheduled time up to `T`. -/
def scheduler_get_jobs (q : List RqJob) (untilT : Time) : List RqJob :=
  q.filter (fun j =>
    match j.sched_time with
    | some t => decide (t ≤ untilT)
    | none => false)

/-- `existing_job_ids = set(j.id for j in scheduler.get_jobs(until=next_job_time))`,
as structural keys.  Only scheduler (periodic) jobs carry a `sched_time`. -/
def pending_key_ids (q : List RqJob) (untilT : Time) : List QueueKey :=
  (scheduler_get_jobs q untilT).filterMap (fun j =>
    match j.key with
    | .periodic k => some k
    | .uuidK _ => none)

/-- The entity data `schedule_analytics_report_autoupdate_job` reads from a
project: its id and `_get_last_report_time` value. -/
structure ProjInfo where
  id : Nat
  lastReport : Option Time
deriving DecidableEq, Repr

/-- The entity data read from a task: id, `_get_last_report_time` value,
and `task.project` (with the project's own data). -/
structure TaskInfo where
  id : Nat
  lastReport : Option Time
  project : Option ProjInfo
deriving DecidableEq, Repr

/-- Which keyword argument `schedule_analytics_report_autoupdate_job` was
called with.  For a job, only `job.segment.task` (and its project) is
read, so `ofJob` carries that task. -/
inductive SchedInput
  | ofJob (t : TaskInfo)
  | ofTask (t : TaskInfo)
  | ofProject (p : ProjInfo)
deriving DecidableEq, Repr

/-- Result of the `target_obj` dispatch (lines 122-141): the target's kind,
id and last-report time, plus the `cvat_task_id` / `cvat_project_id`
keyword arguments passed to `_check_job_analytics`. -/
structure SchedTarget where
  kind : EKind
  oid : Nat
  lastReport : Option Time
  cvat_task_id : Option Nat
  cvat_project_id : Option Nat
deriving DecidableEq, Repr

/-- The `target_obj` dispatch of `schedule_analytics_report_autoupdate_job`:
a job or task resolves to the owning project when there is one, else to the
task itself; a project resolves to itself. -/
def resolve_target : SchedInput → SchedTarget
  | .ofJob t | .ofTask t =>
      match t.project with
      | some p => ⟨.projectK, p.id, p.lastReport, none, some p.id⟩
      | none => ⟨.taskK, t.id, t.lastReport, some t.id, none⟩
  | .ofProject p => ⟨.projectK, p.id, p.lastReport, none, some p.id⟩

/-- The queue job id that one `schedule_analytics_report_autoupdate_job`
call resolves (its `_find_next_job_id` call on the listed pending ids). -/
def resolved_key (q : List RqJob) (inp : SchedInput) (now delay : Time) : QueueKey :=
  let tgt := resolve_target inp
  find_next_job_id (pending_key_ids q (now + delay)) tgt.kind tgt.oid tgt.lastReport now delay

/-- `schedule_analytics_report_autoupdate_job`.  `next_job_time`
(`now.utcnow() + delay`) is modelled as `now + delay`; the job is enqueued
at `next_job_time`, under the resolved key, only if that key is not among
the listed pending ids. -/
def schedule_analytics_report_autoupdate_job (q : List RqJob) (inp : SchedInput)
    (now delay : Time) : List RqJob :=
  let next_job_time := now + delay
  let existing_job_ids := pending_key_ids q next_job_time
  let tgt := resolve_target inp
  let queue_job_id := find_next_job_id existing_job_ids tgt.kind tgt.oid tgt.lastReport now delay
  if queue_job_id ∈ existing_job_ids then q
  else enqueue_at q next_job_time queue_job_id ⟨none, tgt.cvat_task_id, tgt.cvat_project_id⟩

/-- `schedule_analytics_check_job`: enqueue an immediate job under a fresh
uuid key (`rq_id`, a parameter here since `uuid4()` is nondeterministic),
tagged with `user_id` and the custom job type; returns the key.  The
`result_ttl` / `failure_ttl` arguments are retention knobs of the external
queue and are not modelled. -/
def schedule_analytics_check_job (q : List RqJob) (jobId taskId projId : Option Nat)
    (user_id : Nat) (rq_id : Nat) : List RqJob × RqKey :=
  (q ++ [⟨.uuidK rq_id, none, ⟨jobId, taskId, projId⟩, some user_id,
      some RQ_CUSTOM_ANALYTICS_CHECK_JOB_TYPE⟩],
    .uuidK rq_id)

/-- `queue.fetch_job(rq_id)`. -/
def fetch_job (q : List RqJob) (k : RqKey) : Option RqJob :=
  q.find? (fun j => decide (j.key = k))

/-- `is_custom_analytics_check_job`: `rq_job.meta.get("job_type") ==
_RQ_CUSTOM_ANALYTICS_CHECK_JOB_TYPE` (a missing meta entry compares
unequal). -/
def is_custom_analytics_check_job (j : RqJob) : Bool :=
  match j.meta_job_type with
  | some jt => decide (jt = RQ_CUSTOM_ANALYTICS_CHECK_JOB_TYPE)
  | none => false

/-- `get_analytics_check_job`: fetch by key, and drop the job unless it is
tagged as a custom analytics check job. -/
def get_analytics_check_job (q : List RqJob) (k : RqKey) : Option RqJob :=
  match fetch_job q k with
  | some j => if is_custom_analytics_check_job j then some j else none
  | none => none

/-- Metric names used as statistics-dictionary keys. -/
inductive MetricName
  | objects
  | annotation_speed
  | annotation_time
  | total_annotation_speed
  | total_object_count
deriving DecidableEq, Repr

/-- A metric object as constructed in the source (e.g. `JobObjects(db_job)`):
static metadata plus the (possibly raising) result its `calculate()` call
will produce.  Modelled from the spec: the metric classes live in
`primary_metrics` / `derived_metrics` modules that are not in the sources;
per the spec they expose static metadata and one `calculate() -> dataseries`
capability that may raise. -/
structure StatisticsObject where
  title : String
  description : String
  granularity : String
  default_view : String
  transformations : String
  calcResult : Except Unit Dataseries
deriving Repr

/-- One entry of a report's statistics mapping. -/
structure StatisticsEntry where
  title : String
  description : String
  granularity : String
  default_view : String
  transformations : String
  dataseries : Dataseries
deriving DecidableEq, Repr

/-- `_get_statistics_entry`: copy the metadata and run `calculate()`
(an exception propagates as `.error`). -/
def get_statistics_entry (so : StatisticsObject) : Except Unit StatisticsEntry :=
  match so.calcResult with
  | .ok d => .ok ⟨so.title, so.description, so.granularity, so.default_view, so.transformations, d⟩
  | .error e => .error e

/-- The entry `_get_statistics_entry` yields when `calculate()` returns `d`. -/
def entryOf (so : StatisticsObject) (d : Dataseries) : StatisticsEntry :=
  ⟨so.title, so.description, so.granularity, so.default_view, so.transformations, d⟩

/-- A statistics mapping (Python dict, keys unique, insertion-ordered). -/
abbrev Statistics := List (MetricName × StatisticsEntry)

/-- Python dict subscript `statistics[name]` (as an `Option`; the `none`
case is a `KeyError`). -/
def statLookup (s : Statistics) (n : MetricName) : Option StatisticsEntry :=
  (s.find? (fun p => decide (p.1 = n))).map (·.2)

/-- Modelled from the spec: the `AnalyticsReport` Django model is not in
the sources; per the spec it holds a statistics mapping and
`created_date`, the timestamp of the last successful computation, updated
on save. -/
structure AnalyticsReportRec where
  created_date : Time
  statistics : Statistics
deriving DecidableEq, Repr

/-- A job row (`db_job`): id and last-mutation time. -/
structure DBJob where
  id : Nat
  updated_date : Time
deriving DecidableEq, Repr

/-- A segment row: its `job_set`. -/
structure Segment where
  jobs : List DBJob
deriving DecidableEq, Repr

/-- A task row (`db_task`): id, last-mutation time and `segment_set`. -/
structure DBTask where
  id : Nat
  updated_date : Time
  segments : List Segment
deriving DecidableEq, Repr

/-- A project row (`db_project`): id, last-mutation time and `tasks`. -/
structure DBProject where
  id : Nat
  updated_date : Time
  tasks : List DBTask
deriving DecidableEq, Repr

/-- The persisted report records, one optional report per entity id and
level (the mutually-exclusive foreign keys of `AnalyticsReport`). -/
structure ReportStore where
  jobReports : Nat → Option AnalyticsReportRec
  taskReports : Nat → Option AnalyticsReportRec
  projectReports : Nat → Option AnalyticsReportRec

def setJobReport (st : ReportStore) (i : Nat) (r : AnalyticsReportRec) : ReportStore :=
  { st with jobReports := fun k => if k = i then some r else st.jobReports k }

def setTaskReport (st : ReportStore) (i : Nat) (r : AnalyticsReportRec) : ReportStore :=
  { st with taskReports := fun k => if k = i then some r else st.taskReports k }

def setProjectReport (st : ReportStore) (i : Nat) (r : AnalyticsReportRec) : ReportStore :=
  { st with projectReports := fun k => if k = i then some r else st.projectReports k }

/-- The metric constructors imported by `create.py`.  Each field maps a
constructor call (entity, plus primary statistics where the source passes
them) to the resulting metric object.  The five project-level constructors
take a `ProjMetricEntity` recording which row object the source passes
(a task or the project). -/
inductive ProjMetricEntity
  | fromTask (t : DBTask)
  | fromProject (p : DBProject)
deriving Repr

structure MetricEnv where
  JobObjects : DBJob → StatisticsObject
  JobAnnotationSpeed : DBJob → StatisticsObject
  JobAnnotationTime : DBJob → StatisticsObject
  JobTotalAnnotationSpeed : DBJob → StatisticsEntry → StatisticsObject
  JobTotalObjectCount : DBJob → StatisticsEntry → StatisticsObject
  TaskObjects : DBTask → List StatisticsEntry → StatisticsObject
  TaskAnnotationSpeed : DBTask → List StatisticsEntry → StatisticsObject
  TaskAnnotationTime : DBTask → List StatisticsEntry → StatisticsObject
  TaskTotalAnnotationSpeed : DBTask → List StatisticsEntry → StatisticsObject
  TaskTotalObjectCount : DBTask → List StatisticsEntry → StatisticsObject
  ProjectObjects : ProjMetricEntity → List StatisticsEntry → StatisticsObject
  ProjectAnnotationSpeed : ProjMetricEntity → List StatisticsEntry → StatisticsObject
  ProjectAnnotationTime : ProjMetricEntity → List StatisticsEntry → StatisticsObject
  ProjectTotalAnnotationSpeed : ProjMetricEntity → List StatisticsEntry → StatisticsObject
  ProjectTotalObjectCount : ProjMetricEntity → List StatisticsEntry → StatisticsObject

/-- The statistics dictionary built by the recompute branch of
`_compute_report_for_job` (lines 219-233): three primary entries, then the
two derived entries, both constructed from the `annotation_speed` primary
entry just computed.  A raise in any `calculate()` propagates. -/
def recompute_job_statistics (env : MetricEnv) (j : DBJob) : Except Unit Statistics :=
  match get_statistics_entry (env.JobObjects j) with
  | .error e => .error e
  | .ok objectsE =>
    match get_statistics_entry (env.JobAnnotationSpeed j) with
    | .error e => .error e
    | .ok speedE =>
      match get_statistics_entry (env.JobAnnotationTime j) with
      | .error e => .error e
      | .ok timeE =>
        match get_statistics_entry (env.JobTotalAnnotationSpeed j speedE) with
        | .error e => .error e
        | .ok tasE =>
          match get_statistics_entry (env.JobTotalObjectCount j speedE) with
          | .error e => .error e
          | .ok tocE =>
            .ok [(.objects, objectsE), (.annotation_speed, speedE), (.annotation_time, timeE),
              (.total_annotation_speed, tasE), (.total_object_count, tocE)]

/-- `_compute_report_for_job(db_job)`: create an empty report if absent
(persisted immediately), recompute when the report was just created or is
older than the job's `updated_date`, and persist the result; otherwise
return the stored report unchanged.  The source's
`if db_report.created_date < db_job.updated_date or was_created` is split
over the two branches of the absence check. -/
def compute_report_for_job (env : MetricEnv) (now : Time) (st : ReportStore) (j : DBJob) :
    ReportStore × Except Unit AnalyticsReportRec :=
  match st.jobReports j.id with
  | some db_report =>
      if db_report.created_date < j.updated_date then
        match recompute_job_statistics env j with
        | .error e => (st, .error e)
        | .ok stats => (setJobReport st j.id ⟨now, stats⟩, .ok ⟨now, stats⟩)
      else (st, .ok db_report)
  | none =>
      let st1 := setJobReport st j.id ⟨now, []⟩
      match recompute_job_statistics env j with
      | .error e => (st1, .error e)
      | .ok stats => (setJobReport st1 j.id ⟨now, stats⟩, .ok ⟨now, stats⟩)

/-- The job loop of `_compute_report_for_task` (lines 251-254): run
`_compute_report_for_job` over every job of every segment, collecting the
returned reports; an exception aborts the loop (earlier writes stay). -/
def compute_jobs_loop (env : MetricEnv) (now : Time) :
    ReportStore → List DBJob → ReportStore × Except Unit (List AnalyticsReportRec)
  | st, [] => (st, .ok [])
  | st, j :: rest =>
      match compute_report_for_job env now st j with
      | (st1, .error e) => (st1, .error e)
      | (st1, .ok r) =>
          match compute_jobs_loop env now st1 rest with
          | (st2, .error e) => (st2, .error e)
          | (st2, .ok rs) => (st2, .ok (r :: rs))

/-- `[jr.statistics[name] for jr in job_reports]`; a missing key is a
`KeyError` (`.error`). -/
def collect_entries (n : MetricName) : List AnalyticsReportRec → Except Unit (List StatisticsEntry)
  | [] => .ok []
  | r :: rs =>
      match statLookup r.statistics n with
      | none => .error ()
      | some e =>
          match collect_entries n rs with
          | .error err => .error err
          | .ok es => .ok (e :: es)

/-- The statistics dictionary built by the recompute branch of
`_compute_report_for_task` (lines 256-268): aggregate the child job
entries; the three derived/total task metrics all receive the children's
`annotation_speed` entries, as in the source. -/
def recompute_task_statistics (env : MetricEnv) (t : DBTask)
    (job_reports : List AnalyticsReportRec) : Except Unit Statistics :=
  match collect_entries .objects job_reports with
  | .error e => .error e
  | .ok objectsList =>
    match collect_entries .annotation_speed job_reports with
    | .error e => .error e
    | .ok speedList =>
      match collect_entries .annotation_time job_reports with
      | .error e => .error e
      | .ok timeList =>
        match get_statistics_entry (env.TaskObjects t objectsList) with
        | .error e => .error e
        | .ok objectsE =>
          match get_statistics_entry (env.TaskAnnotationSpeed t speedList) with
          | .error e => .error e
          | .ok speedE =>
            match get_statistics_entry (env.TaskAnnotationTime t timeList) with
            | .error e => .error e
            | .ok timeE =>
              match get_statistics_entry (env.TaskTotalAnnotationSpeed t speedList) with
              | .error e => .error e
              | .ok tasE =>
                match get_statistics_entry (env.TaskTotalObjectCount t speedList) with
                | .error e => .error e
                | .ok tocE =>
                  .ok [(.objects, objectsE), (.annotation_speed, speedE),
                    (.annotation_time, timeE), (.total_annotation_speed, tasE),
                    (.total_object_count, tocE)]

/-- The recompute branch of `_compute_report_for_task` (lines 250-271). -/
def task_recompute_branch (env : MetricEnv) (now : Time) (st : ReportStore) (t : DBTask) :
    ReportStore × Except Unit AnalyticsReportRec :=
  match compute_jobs_loop env now st (t.segments.flatMap Segment.jobs) with
  | (st2, .error e) => (st2, .error e)
  | (st2, .ok job_reports) =>
      match recompute_task_statistics env t job_reports with
      | .error e => (st2, .error e)
      | .ok stats => (setTaskReport st2 t.id ⟨now, stats⟩, .ok ⟨now, stats⟩)

/-- `_compute_report_for_task(db_task)`. -/
def compute_report_for_task (env : MetricEnv) (now : Time) (st : ReportStore) (t : DBTask) :
    ReportStore × Except Unit AnalyticsReportRec :=
  match st.taskReports t.id with
  | some db_report =>
      if db_report.created_date < t.updated_date then task_recompute_branch env now st t
      else (st, .ok db_report)
  | none => task_recompute_branch env now (setTaskReport st t.id ⟨now, []⟩) t

/-- The inner job loop of `_compute_report_for_project` (lines 289-292):
`db_job.analytics_report.refresh_from_db()` (an `AttributeError` — modelled
as `.error` — when the job still has no report), then
`_compute_report_for_job`. -/
def project_task_jobs_loop (env : MetricEnv) (now : Time) :
    ReportStore → List DBJob → ReportStore × Except Unit (List AnalyticsReportRec)
  | st, [] => (st, .ok [])
  | st, j :: rest =>
      match st.jobReports j.id with
      | none => (st, .error ())
      | some _ =>
          match compute_report_for_job env now st j with
          | (st1, .error e) => (st1, .error e)
          | (st1, .ok r) =>
              match project_task_jobs_loop env now st1 rest with
              | (st2, .error e) => (st2, .error e)
              | (st2, .ok rs) => (st2, .ok (r :: rs))

/-- The task loop of `_compute_report_for_project` (lines 286-292):
refresh each task (result discarded, exceptions propagate), then re-read
and collect every job report of that task. -/
def project_tasks_loop (env : MetricEnv) (now : Time) :
    ReportStore → List DBTask → ReportStore × Except Unit (List AnalyticsReportRec)
  | st, [] => (st, .ok [])
  | st, t :: rest =>
      match compute_report_for_task env now st t with
      | (st1, .error e) => (st1, .error e)
      | (st1, .ok _) =>
          match project_task_jobs_loop env now st1 (t.segments.flatMap Segment.jobs) with
          | (st2, .error e) => (st2, .error e)
          | (st2, .ok rs) =>
              match project_tasks_loop env now st2 rest with
              | (st3, .error e) => (st3, .error e)
              | (st3, .ok rs2) => (st3, .ok (rs ++ rs2))

/-- The statistics dictionary built by the recompute branch of
`_compute_report_for_project` (lines 294-306).  NOTE (faithful to the
source): line 294 passes `db_project` to `ProjectObjects`, but lines
295-298 pass `db_task` — the task-loop variable, i.e. the LAST task — to
`ProjectAnnotationSpeed`, `ProjectAnnotationTime`,
`ProjectTotalAnnotationSpeed` and `ProjectTotalObjectCount`; `lastTask`
is that leftover loop variable. -/
def recompute_project_statistics (env : MetricEnv) (p : DBProject) (lastTask : DBTask)
    (job_reports : List AnalyticsReportRec) : Except Unit Statistics :=
  match collect_entries .objects job_reports with
  | .error e => .error e
  | .ok objectsList =>
    match collect_entries .annotation_speed job_reports with
    | .error e => .error e
    | .ok speedList =>
      match collect_entries .annotation_time job_reports with
      | .error e => .error e
      | .ok timeList =>
        match get_statistics_entry (env.ProjectObjects (.fromProject p) objectsList) with
        | .error e => .error e
        | .ok objectsE =>
          match get_statistics_entry (env.ProjectAnnotationSpeed (.fromTask lastTask) speedList) with
          | .error e => .error e
          | .ok speedE =>
            match get_statistics_entry (env.ProjectAnnotationTime (.fromTask lastTask) timeList) with
            | .error e => .error e
            | .ok timeE =>
              match get_statistics_entry
                  (env.ProjectTotalAnnotationSpeed (.fromTask lastTask) speedList) with
              | .error e => .error e
              | .ok tasE =>
                match get_statistics_entry
                    (env.ProjectTotalObjectCount (.fromTask lastTask) speedList) with
                | .error e => .error e
                | .ok tocE =>
                  .ok [(.objects, objectsE), (.annotation_speed, speedE),
                    (.annotation_time, timeE), (.total_annotation_speed, tasE),
                    (.total_object_count, tocE)]

/-- The recompute branch of `_compute_report_for_project` (lines 285-309).
When the project has no tasks the loop variable `db_task` is unbound at
line 295 and the source raises `NameError` (`.error`); otherwise `db_task`
is the last task of the loop. -/
def project_recompute_branch (env : MetricEnv) (now : Time) (st : ReportStore)
    (p : DBProject) : ReportStore × Except Unit AnalyticsReportRec :=
  match project_tasks_loop env now st p.tasks with
  | (st2, .error e) => (st2, .error e)
  | (st2, .ok job_reports) =>
      match p.tasks.getLast? with
      | none => (st2, .error ())
      | some db_task =>
          match recompute_project_statistics env p db_task job_reports with
          | .error e => (st2, .error e)
          | .ok stats => (setProjectReport st2 p.id ⟨now, stats⟩, .ok ⟨now, stats⟩)

/-- `_compute_report_for_project(db_project)`. -/
def compute_report_for_project (env : MetricEnv) (now : Time) (st : ReportStore)
    (p : DBProject) : ReportStore × Except Unit AnalyticsReportRec :=
  match st.projectReports p.id with
  | some db_report =>
      if db_report.created_date < p.updated_date then project_recompute_branch env now st p
      else (st, .ok db_report)
  | none => project_recompute_branch env now (setProjectReport st p.id ⟨now, []⟩) p

/-! ### Shared concrete instances (used by witnesses and counterexamples) -/

/-- A metric object whose `calculate()` succeeds with the given value. -/
def tagSO (d : Dataseries) : StatisticsObject := ⟨"t", "d", "g", "v", "tr", .ok d⟩

/-- A metric object whose `calculate()` always succeeds with 0. -/
def defaultSO : StatisticsObject := tagSO 0

/-- A metric object whose `calculate()` raises. -/
def raiseSO : StatisticsObject := ⟨"t", "d", "g", "v", "tr", .error ()⟩

/-- A metric environment where every `calculate()` succeeds with 0. -/
def defaultEnv : MetricEnv :=
  { JobObjects := fun _ => defaultSO
    JobAnnotationSpeed := fun _ => defaultSO
    JobAnnotationTime := fun _ => defaultSO
    JobTotalAnnotationSpeed := fun _ _ => defaultSO
    JobTotalObjectCount := fun _ _ => defaultSO
    TaskObjects := fun _ _ => defaultSO
    TaskAnnotationSpeed := fun _ _ => defaultSO
    TaskAnnotationTime := fun _ _ => defaultSO
    TaskTotalAnnotationSpeed := fun _ _ => defaultSO
    TaskTotalObjectCount := fun _ _ => defaultSO
    ProjectObjects := fun _ _ => defaultSO
    ProjectAnnotationSpeed := fun _ _ => defaultSO
    ProjectAnnotationTime := fun _ _ => defaultSO
    ProjectTotalAnnotationSpeed := fun _ _ => defaultSO
    ProjectTotalObjectCount := fun _ _ => defaultSO }

/-- A metric environment where `JobObjects.calculate()` raises and every
other metric succeeds. -/
def failEnv : MetricEnv := { defaultEnv with JobObjects := fun _ => raiseSO }

/-- The id-valued tag of the row object a project-level metric was
constructed from. -/
def entTag : ProjMetricEntity → Dataseries
  | .fromTask t => (t.id : Int)
  | .fromProject p => (p.id : Int)

/-- A metric environment whose project-level metrics report which row
object they were constructed from (its id as the dataseries). -/
def tagEnv : MetricEnv :=
  { defaultEnv with
    ProjectObjects := fun e _ => tagSO (entTag e)
    ProjectAnnotationSpeed := fun e _ => tagSO (entTag e)
    ProjectAnnotationTime := fun e _ => tagSO (entTag e)
    ProjectTotalAnnotationSpeed := fun e _ => tagSO (entTag e)
    ProjectTotalObjectCount := fun e _ => tagSO (entTag e) }

/-- A report store with no reports at all. -/
def emptyStore : ReportStore := ⟨fun _ => none, fun _ => none, fun _ => none⟩

def jobC : DBJob := ⟨30, 2⟩

def taskC : DBTask := ⟨20, 3, [⟨[jobC]⟩]⟩

def projC : DBProject := ⟨10, 5, [taskC]⟩

/-! ### Helper lemmas: interval arithmetic of `_find_next_job_id` -/

theorem now_lt_next_update_time (last now d : Time) (hd : 0 < d) :
    now < next_update_time last now d := by
  unfold next_update_time nextIntervals
  rw [Int.fdiv_eq_ediv _ hd.le]
  have h1 : (now - last) < ((now - last) / d + 1) * d := Int.lt_ediv_add_one_mul_self _ hd
  have h2 : (now - last) / d + 1 ≤ max 1 (1 + (now - last) / d) := by
    have := le_max_right (1 : Int) (1 + (now - last) / d)
    linarith
  have h3 : ((now - last) / d + 1) * d ≤ (max 1 (1 + (now - last) / d)) * d :=
    mul_le_mul_of_nonneg_right h2 hd.le
  have h4 := mul_comm d (max 1 (1 + (now - last) / d))
  linarith

theorem next_update_time_min (last now d : Time) (hd : 0 < d) (k : Int) (hk : 1 ≤ k)
    (h : now < last + d * k) : next_update_time last now d ≤ last + d * k := by
  unfold next_update_time nextIntervals
  rw [Int.fdiv_eq_ediv _ hd.le]
  have hak : now - last < k * d := by
    have := mul_comm d k
    linarith
  have hqk : (now - last) / d < k := (Int.ediv_lt_iff_lt_mul hd).mpr hak
  have hm : max 1 (1 + (now - last) / d) ≤ k :=
    max_le hk (by have := Int.add_one_le_iff.mpr hqk; linarith)
  have h5 : (max 1 (1 + (now - last) / d)) * d ≤ k * d := mul_le_mul_of_nonneg_right hm hd.le
  have h6 := mul_comm d (max 1 (1 + (now - last) / d))
  have h7 := mul_comm d k
  linarith

theorem next_update_time_form (last now d : Time) :
    ∃ k : Int, 1 ≤ k ∧ next_update_time last now d = last + d * k :=
  ⟨nextIntervals last now d, by unfold nextIntervals; exact le_max_left _ _, rfl⟩

theorem next_update_time_window (t0 now d : Time) (hd : 0 < d) (h1 : t0 ≤ now)
    (h2 : now < t0 + d) : next_update_time t0 now d = t0 + d := by
  unfold next_update_time nextIntervals
  rw [Int.fdiv_eq_ediv _ hd.le]
  have hz : (now - t0) / d = 0 := Int.ediv_eq_zero_of_lt (by linarith) (by linarith)
  rw [hz]
  norm_num

/-! ### C1 -/

/-- C1 counterexample: at `lastReportTime = 100`, `delay = 30`, `now = 130`
(`now - lastReportTime` an exact multiple of `delay`), the code's target
time is 160, while the claim's formula
`intervals = max(1, ceil((now - lastReportTime) / delay))` gives 130 —
which moreover is not strictly greater than `now = 130`. -/
theorem C1_counterexample :
    find_next_job_id [] .taskK 1 (some 100) 130 30 = ⟨.taskK, 1, .ts 160⟩ ∧
    spec_target_time 100 130 30 = 130 ∧
    ¬ ((130 : Time) > 130) := by decide

/-- C1 (amended): with an existing report and no reusable pending job, the
scheduler's target time is `lastReportTime + delay * intervals` with
`intervals = max(1, 1 + floor((now - lastReportTime) / delay))` (one more
than the spec's ceil formula exactly when `delay` divides
`now - lastReportTime`), and this target is the smallest multiple-of-delay
boundary after `lastReportTime` that is strictly greater than `now`. -/
theorem C1_theorem (kind : EKind) (oid : Nat) (last now d : Time) (hd : 0 < d) :
    find_next_job_id [] kind oid (some last) now d =
      ⟨kind, oid, .ts (next_update_time last now d)⟩ ∧
    now < next_update_time last now d ∧
    (∃ k : Int, 1 ≤ k ∧ next_update_time last now d = last + d * k) ∧
    (∀ k : Int, 1 ≤ k → now < last + d * k → next_update_time last now d ≤ last + d * k) :=
  ⟨rfl, now_lt_next_update_time last now d hd, next_update_time_form last now d,
    fun k hk h => next_update_time_min last now d hd k hk h⟩

/-- C1 witness: the claim's own example `lastReportTime = 100, delay = 30,
now = 145` yields target 160. -/
theorem C1_witness :
    (0 : Time) < 30 ∧
    (find_next_job_id [] .taskK 1 (some 100) 145 30 =
        ⟨.taskK, 1, .ts (next_update_time 100 145 30)⟩ ∧
      (145 : Time) < next_update_time 100 145 30 ∧
      (∃ k : Int, 1 ≤ k ∧ next_update_time 100 145 30 = 100 + 30 * k) ∧
      (∀ k : Int, 1 ≤ k → (145 : Time) < 100 + 30 * k →
        next_update_time 100 145 30 ≤ 100 + 30 * k)) ∧
    next_update_time 100 145 30 = 160 :=
  ⟨by decide, C1_theorem .taskK 1 100 145 30 (by decide), by decide⟩

/-! ### Helper lemmas: the scheduler queue -/

/-- No pending job in `q` is a periodic job scoped to entity `(kind, oid)`. -/
def noEntityKeys (q : List RqJob) (kind : EKind) (oid : Nat) : Prop :=
  ∀ j ∈ q, ∀ k : QueueKey, j.key = .periodic k → ¬(k.kind = kind ∧ k.oid = oid)

theorem pending_key_ids_mem {q : List RqJob} {T : Time} {k : QueueKey}
    (h : k ∈ pending_key_ids q T) :
    ∃ j ∈ q, j.key = RqKey.periodic k ∧ ∃ t, j.sched_time = some t ∧ t ≤ T := by
  unfold pending_key_ids at h
  rcases List.mem_filterMap.mp h with ⟨j, hj, hk⟩
  rcases List.mem_filter.mp hj with ⟨hjq, hsched⟩
  refine ⟨j, hjq, ?_, ?_⟩
  · cases hkey : j.key with
    | periodic k' =>
        rw [hkey] at hk
        simp only [Option.some.injEq] at hk
        rw [hk]
    | uuidK u => rw [hkey] at hk; cases hk
  · cases hst : j.sched_time with
    | some t =>
        rw [hst] at hsched
        exact ⟨t, rfl, of_decide_eq_true hsched⟩
    | none => rw [hst] at hsched; cases hsched

theorem pending_key_ids_of_mem {q : List RqJob} {T : Time} {j : RqJob} {k : QueueKey} {t : Time}
    (hj : j ∈ q) (hkey : j.key = RqKey.periodic k) (hst : j.sched_time = some t) (hT : t ≤ T) :
    k ∈ pending_key_ids q T := by
  unfold pending_key_ids scheduler_get_jobs
  refine List.mem_filterMap.mpr ⟨j, List.mem_filter.mpr ⟨hj, ?_⟩, ?_⟩
  · rw [hst]; exact decide_eq_true hT
  · rw [hkey]

theorem pending_key_ids_append (q1 q2 : List RqJob) (T : Time) :
    pending_key_ids (q1 ++ q2) T = pending_key_ids q1 T ++ pending_key_ids q2 T := by
  unfold pending_key_ids scheduler_get_jobs
  rw [List.filter_append, List.filterMap_append]

theorem pending_key_ids_singleton (k : QueueKey) (t T : Time) (p : Payload) :
    pending_key_ids [⟨.periodic k, some t, p, none, none⟩] T =
      if t ≤ T then [k] else [] := by
  unfold pending_key_ids scheduler_get_jobs
  by_cases h : t ≤ T <;> simp [h]

theorem entity_filter_pending_nil {q : List RqJob} {kind : EKind} {oid : Nat} {T : Time}
    (hq : noEntityKeys q kind oid) :
    (pending_key_ids q T).filter (fun k => decide (k.kind = kind ∧ k.oid = oid)) = [] := by
  rw [List.filter_eq_nil_iff]
  intro k hk
  rcases pending_key_ids_mem hk with ⟨j, hj, hkey, _⟩
  simpa using hq j hj k hkey

theorem noEntityKeys_not_pending {q : List RqJob} {kind : EKind} {oid : Nat} {T : Time}
    (hq : noEntityKeys q kind oid) {k : QueueKey} (hkind : k.kind = kind) (hoid : k.oid = oid) :
    k ∉ pending_key_ids q T := by
  intro hmem
  rcases pending_key_ids_mem hmem with ⟨j, hj, hkey, _⟩
  exact hq j hj k hkey ⟨hkind, hoid⟩

theorem noEntityKeys_any_false {q : List RqJob} {kind : EKind} {oid : Nat}
    (hq : noEntityKeys q kind oid) {k : QueueKey} (hkind : k.kind = kind) (hoid : k.oid = oid) :
    q.any (fun j => decide (j.key = .periodic k)) = false := by
  rw [List.any_eq_false]
  intro j hj
  simp only [decide_eq_true_eq]
  intro hkey
  exact hq j hj k hkey ⟨hkind, hoid⟩

theorem max_by_timestamp_mem : ∀ (l : List QueueKey) (acc : Option QueueKey) (k : QueueKey),
    l.foldl (fun acc k =>
      match acc with
      | none => some k
      | some a =>
          if tsLt (get_timestamp a.suffix) (get_timestamp k.suffix) then some k else some a)
      acc = some k →
    acc = some k ∨ k ∈ l := by
  intro l
  induction l with
  | nil => intro acc k h; exact .inl h
  | cons x xs ih =>
      intro acc k h
      rw [List.foldl_cons] at h
      rcases ih _ k h with h' | h'
      · cases acc with
        | none =>
            have h2 : some x = some k := h'
            simp only [Option.some.injEq] at h2
            subst h2
            exact .inr (List.mem_cons_self x xs)
        | some a =>
            have h2 : (if tsLt (get_timestamp a.suffix) (get_timestamp x.suffix) then some x
                else some a) = some k := h'
            by_cases hlt : tsLt (get_timestamp a.suffix) (get_timestamp x.suffix)
            · rw [if_pos hlt] at h2
              simp only [Option.some.injEq] at h2
              subst h2
              exact .inr (List.mem_cons_self x xs)
            · rw [if_neg hlt] at h2
              exact .inl h2
      · exact .inr (List.mem_cons_of_mem x h')

/-- The key returned by `_find_next_job_id` is always scoped to the entity
it was asked about (the reuse branch returns a key from the filtered
list). -/
theorem find_next_job_id_kind_oid (existing : List QueueKey) (kind : EKind) (oid : Nat)
    (last : Option Time) (now d : Time) :
    (find_next_job_id existing kind oid last now d).kind = kind ∧
    (find_next_job_id existing kind oid last now d).oid = oid := by
  unfold find_next_job_id
  cases last with
  | none => exact ⟨rfl, rfl⟩
  | some l =>
      simp only
      cases hmax : max_by_timestamp
        (existing.filter (fun k => decide (k.kind = kind ∧ k.oid = oid))) with
      | none => exact ⟨rfl, rfl⟩
      | some mk =>
          have hmem : mk ∈ existing.filter (fun k => decide (k.kind = kind ∧ k.oid = oid)) := by
            rcases max_by_timestamp_mem _ none mk hmax with h | h
            · cases h
            · exact h
          have hpred := List.of_mem_filter hmem
          simp only [decide_eq_true_eq] at hpred
          by_cases hlt : tsLt (some now) (get_timestamp mk.suffix)
          · simp only [if_pos hlt]
            exact hpred
          · simp only [if_neg hlt]
            exact ⟨rfl, rfl⟩

theorem find_next_job_id_none_last (existing : List QueueKey) (kind : EKind) (oid : Nat)
    (now d : Time) :
    find_next_job_id existing kind oid none now d = ⟨kind, oid, .initial⟩ := rfl

theorem find_next_job_id_filter_nil (existing : List QueueKey) (kind : EKind) (oid : Nat)
    (last now d : Time)
    (hfil : existing.filter (fun k => decide (k.kind = kind ∧ k.oid = oid)) = []) :
    find_next_job_id existing kind oid (some last) now d = nextRegularKey kind oid last now d := by
  simp only [find_next_job_id]
  rw [hfil]
  rfl

theorem find_next_job_id_filter_single (existing : List QueueKey) (kind : EKind) (oid : Nat)
    (last now d : Time) (k : QueueKey)
    (hfil : existing.filter (fun kk => decide (kk.kind = kind ∧ kk.oid = oid)) = [k]) :
    find_next_job_id existing kind oid (some last) now d =
      if tsLt (some now) (get_timestamp k.suffix) then k
      else nextRegularKey kind oid last now d := by
  simp only [find_next_job_id]
  rw [hfil]
  rfl

/-- Unfolding equation for `schedule_analytics_report_autoupdate_job`. -/
theorem schedule_eq (q : List RqJob) (inp : SchedInput) (now d : Time) :
    schedule_analytics_report_autoupdate_job q inp now d =
      if resolved_key q inp now d ∈ pending_key_ids q (now + d) then q
      else enqueue_at q (now + d) (resolved_key q inp now d)
        ⟨none, (resolve_target inp).cvat_task_id, (resolve_target inp).cvat_project_id⟩ := rfl

theorem resolved_key_eq (q : List RqJob) (inp : SchedInput) (now d : Time) :
    resolved_key q inp now d = find_next_job_id (pending_key_ids q (now + d))
      (resolve_target inp).kind (resolve_target inp).oid (resolve_target inp).lastReport
      now d := rfl

/-! ### C2 -/

/-- C2 counterexample: with `lastReportTime = 100`, `delay = 30`,
`now = 145` and an empty queue, the enqueued job's key embeds the target
time 160, but the job is scheduled at `now + delay = 175`, not at the time
embedded in the key. -/
theorem C2_counterexample :
    schedule_analytics_report_autoupdate_job [] (.ofTask ⟨1, some 100, none⟩) 145 30 =
      [⟨.periodic ⟨.taskK, 1, .ts 160⟩, some 175, ⟨none, some 1, none⟩, none, none⟩] ∧
    (160 : Time) ≠ 175 := by decide

/-- C2 (amended): when the resolved target key is not among the listed
pending keys (and no job under that key exists at all), exactly one
recompute job is enqueued under that key, scheduled at `now + delay` (not
at the time embedded in the key), with the payload carrying the target
entity's task/project id; when the target key is already listed, nothing
is enqueued. -/
theorem C2_theorem (q : List RqJob) (inp : SchedInput) (now d : Time) :
    (resolved_key q inp now d ∈ pending_key_ids q (now + d) →
      schedule_analytics_report_autoupdate_job q inp now d = q) ∧
    (resolved_key q inp now d ∉ pending_key_ids q (now + d) →
      (∀ j ∈ q, j.key ≠ RqKey.periodic (resolved_key q inp now d)) →
      schedule_analytics_report_autoupdate_job q inp now d =
        q ++ [⟨.periodic (resolved_key q inp now d), some (now + d),
          ⟨none, (resolve_target inp).cvat_task_id, (resolve_target inp).cvat_project_id⟩,
          none, none⟩]) := by
  constructor
  · intro h
    rw [schedule_eq, if_pos h]
  · intro h hq
    rw [schedule_eq, if_neg h]
    unfold enqueue_at
    have hany : (q.any (fun j => decide (j.key = RqKey.periodic (resolved_key q inp now d))))
        = false := by
      rw [List.any_eq_false]
      intro j hj
      simpa using hq j hj
    rw [hany]
    simp

/-- C2 witness: concrete instance of the amended claim (the enqueue case). -/
theorem C2_witness :
    resolved_key [] (.ofTask ⟨1, some 100, none⟩) 145 30 ∉
      pending_key_ids [] (145 + 30) ∧
    schedule_analytics_report_autoupdate_job [] (.ofTask ⟨1, some 100, none⟩) 145 30 =
      [] ++ [⟨.periodic (resolved_key [] (.ofTask ⟨1, some 100, none⟩) 145 30), some (145 + 30),
        ⟨none, some 1, none⟩, none, none⟩] :=
  ⟨by decide,
    (C2_theorem [] (.ofTask ⟨1, some 100, none⟩) 145 30).2 (by decide)
      (fun j hj => absurd hj (List.not_mem_nil j))⟩

/-! ### C3 -/

/-- Iterate `schedule_analytics_report_autoupdate_job` for one entity at
the given sequence of call times. -/
def schedule_many (inp : SchedInput) (d : Time) : List RqJob → List Time → List RqJob
  | q, [] => q
  | q, n :: rest => schedule_many inp d (schedule_analytics_report_autoupdate_job q inp n d) rest

/-- The pending jobs of `q` whose key is scoped to entity `(kind, oid)`. -/
def entity_jobs (q : List RqJob) (kind : EKind) (oid : Nat) : List RqJob :=
  q.filter (fun j =>
    match j.key with
    | .periodic k => decide (k.kind = kind ∧ k.oid = oid)
    | .uuidK _ => false)

theorem entity_jobs_append (q1 q2 : List RqJob) (kind : EKind) (oid : Nat) :
    entity_jobs (q1 ++ q2) kind oid = entity_jobs q1 kind oid ++ entity_jobs q2 kind oid := by
  unfold entity_jobs
  rw [List.filter_append]

theorem entity_jobs_nil {q : List RqJob} {kind : EKind} {oid : Nat}
    (hq : noEntityKeys q kind oid) : entity_jobs q kind oid = [] := by
  unfold entity_jobs
  rw [List.filter_eq_nil_iff]
  intro j hj
  cases hkey : j.key with
  | periodic k => simpa [hkey] using hq j hj k hkey
  | uuidK u => simp [hkey]

/-- An entity with no report always resolves to its "initial" key,
independent of the queue contents and of the call time. -/
theorem resolved_key_initial (q : List RqJob) (inp : SchedInput) (now d : Time)
    (hlast : (resolve_target inp).lastReport = none) :
    resolved_key q inp now d =
      ⟨(resolve_target inp).kind, (resolve_target inp).oid, .initial⟩ := by
  rw [resolved_key_eq, hlast]
  rfl

/-- A call on a queue without entity-scoped keys appends exactly one job
under the resolved key, scheduled at `now + delay`. -/
theorem schedule_fresh (q : List RqJob) (inp : SchedInput) (now d : Time)
    (hq : noEntityKeys q (resolve_target inp).kind (resolve_target inp).oid)
    (hkind : (resolved_key q inp now d).kind = (resolve_target inp).kind)
    (hoid : (resolved_key q inp now d).oid = (resolve_target inp).oid) :
    schedule_analytics_report_autoupdate_job q inp now d =
      q ++ [⟨.periodic (resolved_key q inp now d), some (now + d),
        ⟨none, (resolve_target inp).cvat_task_id, (resolve_target inp).cvat_project_id⟩,
        none, none⟩] := by
  rw [schedule_eq, if_neg (noEntityKeys_not_pending hq hkind hoid)]
  unfold enqueue_at
  rw [noEntityKeys_any_false hq hkind hoid]
  simp

/-- A call on a queue that already holds a job under the resolved key
leaves the queue unchanged (whether or not that job is listed in the
current window, the keyed enqueue is a no-op). -/
theorem schedule_stable (q : List RqJob) (inp : SchedInput) (now d : Time) (j0 : RqJob)
    (hmem : j0 ∈ q) (hkey : j0.key = RqKey.periodic (resolved_key q inp now d)) :
    schedule_analytics_report_autoupdate_job q inp now d = q := by
  rw [schedule_eq]
  by_cases hp : resolved_key q inp now d ∈ pending_key_ids q (now + d)
  · rw [if_pos hp]
  · rw [if_neg hp]
    unfold enqueue_at
    have hany : (q.any (fun j => decide (j.key = RqKey.periodic (resolved_key q inp now d))))
        = true :=
      List.any_eq_true.mpr ⟨j0, hmem, decide_eq_true hkey⟩
    rw [hany]
    simp

theorem schedule_many_stable (inp : SchedInput) (d : Time) (K0 : QueueKey)
    (hres : ∀ (q : List RqJob) (n : Time), resolved_key q inp n d = K0) :
    ∀ (times : List Time) (q : List RqJob) (j0 : RqJob), j0 ∈ q → j0.key = .periodic K0 →
      schedule_many inp d q times = q
  | [], _, _, _, _ => rfl
  | n :: rest, q, j0, hmem, hkey => by
      unfold schedule_many
      rw [schedule_stable q inp n d j0 hmem (by rw [hres]; exact hkey)]
      exact schedule_many_stable inp d K0 hres rest q j0 hmem hkey

/-- C3: for an entity whose report has never been computed
(`lastReportTime is None`), every call resolves the entity-scoped constant
"initial" key — regardless of the pending jobs — and any non-empty
sequence of calls starting from a queue without entity-scoped jobs leaves
exactly one pending job for the entity, keyed by its initial sentinel. -/
theorem C3_theorem (inp : SchedInput) (d : Time) (q0 : List RqJob) (now : Time)
    (rest : List Time)
    (hlast : (resolve_target inp).lastReport = none)
    (hq0 : noEntityKeys q0 (resolve_target inp).kind (resolve_target inp).oid) :
    (∀ (q : List RqJob) (n : Time), resolved_key q inp n d =
      ⟨(resolve_target inp).kind, (resolve_target inp).oid, .initial⟩) ∧
    entity_jobs (schedule_many inp d q0 (now :: rest)) (resolve_target inp).kind
        (resolve_target inp).oid =
      [⟨.periodic ⟨(resolve_target inp).kind, (resolve_target inp).oid, .initial⟩, some (now + d),
        ⟨none, (resolve_target inp).cvat_task_id, (resolve_target inp).cvat_project_id⟩,
        none, none⟩] := by
  have hres : ∀ (q : List RqJob) (n : Time), resolved_key q inp n d =
      ⟨(resolve_target inp).kind, (resolve_target inp).oid, .initial⟩ :=
    fun q n => resolved_key_initial q inp n d hlast
  refine ⟨hres, ?_⟩
  have h1 : schedule_analytics_report_autoupdate_job q0 inp now d =
      q0 ++ [⟨.periodic ⟨(resolve_target inp).kind, (resolve_target inp).oid, .initial⟩,
        some (now + d),
        ⟨none, (resolve_target inp).cvat_task_id, (resolve_target inp).cvat_project_id⟩,
        none, none⟩] := by
    rw [schedule_fresh q0 inp now d hq0 (by rw [hres]) (by rw [hres]), hres]
  show entity_jobs (schedule_many inp d q0 (now :: rest)) _ _ = _
  unfold schedule_many
  rw [h1]
  rw [schedule_many_stable inp d _ hres rest _
    ⟨.periodic ⟨(resolve_target inp).kind, (resolve_target inp).oid, .initial⟩, some (now + d),
      ⟨none, (resolve_target inp).cvat_task_id, (resolve_target inp).cvat_project_id⟩,
      none, none⟩ (by simp) rfl]
  rw [entity_jobs_append, entity_jobs_nil hq0]
  simp [entity_jobs]

/-- C3 witness: a task with no report, two calls on an empty queue. -/
theorem C3_witness :
    (resolve_target (SchedInput.ofTask ⟨1, none, none⟩)).lastReport = none ∧
    entity_jobs (schedule_many (SchedInput.ofTask ⟨1, none, none⟩) 30 [] (5 :: [7]))
        (resolve_target (SchedInput.ofTask ⟨1, none, none⟩)).kind
        (resolve_target (SchedInput.ofTask ⟨1, none, none⟩)).oid =
      [⟨.periodic ⟨(resolve_target (SchedInput.ofTask ⟨1, none, none⟩)).kind,
          (resolve_target (SchedInput.ofTask ⟨1, none, none⟩)).oid, .initial⟩, some (5 + 30),
        ⟨none, (resolve_target (SchedInput.ofTask ⟨1, none, none⟩)).cvat_task_id,
          (resolve_target (SchedInput.ofTask ⟨1, none, none⟩)).cvat_project_id⟩,
        none, none⟩] :=
  ⟨rfl,
    (C3_theorem (SchedInput.ofTask ⟨1, none, none⟩) 30 [] 5 [7] rfl
      (fun j hj => absurd hj (List.not_mem_nil j))).2⟩

/-! ### C4 -/

/-- C4: window coalescing.  With `lastReportTime = t0`, fixed `delay = d`,
and no pending entity keys, a first call at `now1 ∈ [t0, t0+d)` resolves
the key embedding `t0 + d` and enqueues it; a later call at
`now2 ∈ [now1, t0+d)` resolves the same key and leaves the queue
unchanged; a call at `t0 + d + ε` (ε > 0) resolves a key embedding a
strictly later time. -/
theorem C4_theorem (q0 : List RqJob) (tid : Nat) (t0 d now1 now2 eps : Time)
    (hd : 0 < d) (hq0 : noEntityKeys q0 .taskK tid)
    (h1 : t0 ≤ now1) (h12 : now1 ≤ now2) (h2 : now2 < t0 + d) (heps : 0 < eps) :
    resolved_key q0 (.ofTask ⟨tid, some t0, none⟩) now1 d = ⟨.taskK, tid, .ts (t0 + d)⟩ ∧
    schedule_analytics_report_autoupdate_job q0 (.ofTask ⟨tid, some t0, none⟩) now1 d =
      q0 ++ [⟨.periodic ⟨.taskK, tid, .ts (t0 + d)⟩, some (now1 + d),
        ⟨none, some tid, none⟩, none, none⟩] ∧
    resolved_key
        (q0 ++ [⟨.periodic ⟨.taskK, tid, .ts (t0 + d)⟩, some (now1 + d),
          ⟨none, some tid, none⟩, none, none⟩])
        (.ofTask ⟨tid, some t0, none⟩) now2 d = ⟨.taskK, tid, .ts (t0 + d)⟩ ∧
    schedule_analytics_report_autoupdate_job
        (q0 ++ [⟨.periodic ⟨.taskK, tid, .ts (t0 + d)⟩, some (now1 + d),
          ⟨none, some tid, none⟩, none, none⟩])
        (.ofTask ⟨tid, some t0, none⟩) now2 d =
      q0 ++ [⟨.periodic ⟨.taskK, tid, .ts (t0 + d)⟩, some (now1 + d),
        ⟨none, some tid, none⟩, none, none⟩] ∧
    (∃ T', resolved_key
        (q0 ++ [⟨.periodic ⟨.taskK, tid, .ts (t0 + d)⟩, some (now1 + d),
          ⟨none, some tid, none⟩, none, none⟩])
        (.ofTask ⟨tid, some t0, none⟩) (t0 + d + eps) d = ⟨.taskK, tid, .ts T'⟩ ∧
      t0 + d < T') := by
  have hn1 : now1 < t0 + d := lt_of_le_of_lt h12 h2
  have hA : resolved_key q0 (.ofTask ⟨tid, some t0, none⟩) now1 d =
      ⟨.taskK, tid, .ts (t0 + d)⟩ := by
    rw [resolved_key_eq]
    show find_next_job_id (pending_key_ids q0 (now1 + d)) .taskK tid (some t0) now1 d = _
    rw [find_next_job_id_filter_nil _ _ _ _ _ _ (entity_filter_pending_nil hq0)]
    unfold nextRegularKey
    rw [next_update_time_window t0 now1 d hd h1 hn1]
  have hB : schedule_analytics_report_autoupdate_job q0 (.ofTask ⟨tid, some t0, none⟩) now1 d =
      q0 ++ [⟨.periodic ⟨.taskK, tid, .ts (t0 + d)⟩, some (now1 + d),
        ⟨none, some tid, none⟩, none, none⟩] := by
    rw [schedule_fresh q0 (.ofTask ⟨tid, some t0, none⟩) now1 d hq0
      (by rw [hA]; rfl) (by rw [hA]; rfl), hA]
    rfl
  have hfil : ∀ T : Time, now1 + d ≤ T →
      (pending_key_ids
        (q0 ++ [⟨.periodic ⟨.taskK, tid, .ts (t0 + d)⟩, some (now1 + d),
          ⟨none, some tid, none⟩, none, none⟩]) T).filter
        (fun kk => decide (kk.kind = EKind.taskK ∧ kk.oid = tid)) =
      [⟨.taskK, tid, .ts (t0 + d)⟩] := by
    intro T hT
    rw [pending_key_ids_append, List.filter_append, entity_filter_pending_nil hq0,
      pending_key_ids_singleton, if_pos hT]
    simp
  have hC : resolved_key
      (q0 ++ [⟨.periodic ⟨.taskK, tid, .ts (t0 + d)⟩, some (now1 + d),
        ⟨none, some tid, none⟩, none, none⟩])
      (.ofTask ⟨tid, some t0, none⟩) now2 d = ⟨.taskK, tid, .ts (t0 + d)⟩ := by
    rw [resolved_key_eq]
    show find_next_job_id _ .taskK tid (some t0) now2 d = _
    rw [find_next_job_id_filter_single _ _ _ _ _ _ _ (hfil (now2 + d) (by linarith))]
    rw [if_pos (by simp [tsLt, get_timestamp, h2])]
  have hD : schedule_analytics_report_autoupdate_job
      (q0 ++ [⟨.periodic ⟨.taskK, tid, .ts (t0 + d)⟩, some (now1 + d),
        ⟨none, some tid, none⟩, none, none⟩])
      (.ofTask ⟨tid, some t0, none⟩) now2 d =
      q0 ++ [⟨.periodic ⟨.taskK, tid, .ts (t0 + d)⟩, some (now1 + d),
        ⟨none, some tid, none⟩, none, none⟩] := by
    refine schedule_stable _ _ _ _
      ⟨.periodic ⟨.taskK, tid, .ts (t0 + d)⟩, some (now1 + d),
        ⟨none, some tid, none⟩, none, none⟩ (by simp) ?_
    rw [hC]
  have hE : resolved_key
      (q0 ++ [⟨.periodic ⟨.taskK, tid, .ts (t0 + d)⟩, some (now1 + d),
        ⟨none, some tid, none⟩, none, none⟩])
      (.ofTask ⟨tid, some t0, none⟩) (t0 + d + eps) d =
      ⟨.taskK, tid, .ts (next_update_time t0 (t0 + d + eps) d)⟩ := by
    rw [resolved_key_eq]
    show find_next_job_id _ .taskK tid (some t0) (t0 + d + eps) d = _
    rw [find_next_job_id_filter_single _ _ _ _ _ _ _ (hfil (t0 + d + eps + d) (by linarith))]
    rw [if_neg (by simp [tsLt, get_timestamp]; linarith)]
    rfl
  refine ⟨hA, hB, hC, hD, next_update_time t0 (t0 + d + eps) d, hE, ?_⟩
  have := now_lt_next_update_time t0 (t0 + d + eps) d hd
  linarith

/-- C4 witness: `t0 = 100`, `d = 30`, calls at 110 and 120, then at 135. -/
theorem C4_witness :
    resolved_key [] (.ofTask ⟨1, some 100, none⟩) 110 30 = ⟨.taskK, 1, .ts 130⟩ ∧
    schedule_analytics_report_autoupdate_job [] (.ofTask ⟨1, some 100, none⟩) 110 30 =
      [] ++ [⟨.periodic ⟨.taskK, 1, .ts 130⟩, some 140, ⟨none, some 1, none⟩, none, none⟩] ∧
    resolved_key
        ([] ++ [⟨.periodic ⟨.taskK, 1, .ts 130⟩, some 140, ⟨none, some 1, none⟩, none, none⟩])
        (.ofTask ⟨1, some 100, none⟩) 120 30 = ⟨.taskK, 1, .ts 130⟩ ∧
    schedule_analytics_report_autoupdate_job
        ([] ++ [⟨.periodic ⟨.taskK, 1, .ts 130⟩, some 140, ⟨none, some 1, none⟩, none, none⟩])
        (.ofTask ⟨1, some 100, none⟩) 120 30 =
      [] ++ [⟨.periodic ⟨.taskK, 1, .ts 130⟩, some 140, ⟨none, some 1, none⟩, none, none⟩] ∧
    (∃ T', resolved_key
        ([] ++ [⟨.periodic ⟨.taskK, 1, .ts 130⟩, some 140, ⟨none, some 1, none⟩, none, none⟩])
        (.ofTask ⟨1, some 100, none⟩) (100 + 30 + 5) 30 = ⟨.taskK, 1, .ts T'⟩ ∧
      (100 : Time) + 30 < T') := by
  have h := C4_theorem [] 1 100 30 110 120 5 (by decide)
    (fun j hj => absurd hj (List.not_mem_nil j)) (by decide) (by decide) (by decide) (by decide)
  exact h

theorem queuekey_eta (k : QueueKey) (kind : EKind) (oid : Nat)
    (h1 : k.kind = kind) (h2 : k.oid = oid) : k = ⟨kind, oid, k.suffix⟩ := by
  cases k
  cases h1
  cases h2
  rfl

/-! ### C10 -/

/-- C10: the autoupdate scheduler never targets a job (leaf).  For a job or
task input the target is the owning project when there is one, otherwise
the standalone task; for a project input, the project.  The payload always
carries exactly one of `cvat_task_id` / `cvat_project_id`, and any newly
enqueued job is keyed to the resolved target's kind and id with that
payload. -/
theorem C10_theorem (inp : SchedInput) (q : List RqJob) (now d : Time) :
    (∀ t : TaskInfo, inp = .ofJob t ∨ inp = .ofTask t →
      (∀ p : ProjInfo, t.project = some p →
        resolve_target inp = ⟨.projectK, p.id, p.lastReport, none, some p.id⟩) ∧
      (t.project = none →
        resolve_target inp = ⟨.taskK, t.id, t.lastReport, some t.id, none⟩)) ∧
    (∀ p : ProjInfo, inp = .ofProject p →
      resolve_target inp = ⟨.projectK, p.id, p.lastReport, none, some p.id⟩) ∧
    ((resolve_target inp).cvat_task_id = none ↔ (resolve_target inp).cvat_project_id ≠ none) ∧
    (∀ j ∈ schedule_analytics_report_autoupdate_job q inp now d, j ∈ q ∨
      ((∃ sfx : KeySuffix,
          j.key = .periodic ⟨(resolve_target inp).kind, (resolve_target inp).oid, sfx⟩) ∧
        j.payload = ⟨none, (resolve_target inp).cvat_task_id,
          (resolve_target inp).cvat_project_id⟩)) := by
  refine ⟨?_, ?_, ?_, ?_⟩
  · rintro t (rfl | rfl) <;>
      exact ⟨fun p hp => by simp [resolve_target, hp], fun hp => by simp [resolve_target, hp]⟩
  · rintro p rfl
    rfl
  · cases inp with
    | ofJob t | ofTask t =>
        cases hp : t.project with
        | none => simp [resolve_target, hp]
        | some pr => simp [resolve_target, hp]
    | ofProject p => simp [resolve_target]
  · intro j hj
    rw [schedule_eq] at hj
    by_cases hmem : resolved_key q inp now d ∈ pending_key_ids q (now + d)
    · rw [if_pos hmem] at hj
      exact .inl hj
    · rw [if_neg hmem] at hj
      unfold enqueue_at at hj
      by_cases hany : (q.any (fun jj =>
          decide (jj.key = RqKey.periodic (resolved_key q inp now d)))) = true
      · rw [if_pos hany] at hj
        exact .inl hj
      · rw [if_neg hany] at hj
        rcases List.mem_append.mp hj with h | h
        · exact .inl h
        · rcases List.mem_singleton.mp h with rfl
          refine .inr ⟨⟨(resolved_key q inp now d).suffix, ?_⟩, rfl⟩
          have hk := find_next_job_id_kind_oid (pending_key_ids q (now + d))
            (resolve_target inp).kind (resolve_target inp).oid
            (resolve_target inp).lastReport now d
          rw [← resolved_key_eq] at hk
          exact congrArg RqKey.periodic (queuekey_eta _ _ _ hk.1 hk.2)

/-- C10 witness: a job whose task belongs to a project resolves to the
project, with only `cvat_project_id` set. -/
theorem C10_witness :
    resolve_target (SchedInput.ofJob ⟨1, some 5, some ⟨2, some 7⟩⟩) =
      ⟨.projectK, 2, some 7, none, some 2⟩ :=
  ((C10_theorem (SchedInput.ofJob ⟨1, some 5, some ⟨2, some 7⟩⟩) [] 0 1).1
    ⟨1, some 5, some ⟨2, some 7⟩⟩ (Or.inl rfl)).1 ⟨2, some 7⟩ rfl

/-! ### C9 -/

/-- C9: `get_analytics_check_job` returns a job iff it exists under the
key and is tagged as a custom analytics check job; an untagged (periodic)
job or an absent key yields nothing; autoupdate scheduling only ever adds
untagged jobs, while `schedule_analytics_check_job` enqueues exactly one
tagged job under its fresh uuid key. -/
theorem C9_theorem :
    (∀ (q : List RqJob) (k : RqKey) (j : RqJob),
      get_analytics_check_job q k = some j ↔
        fetch_job q k = some j ∧ is_custom_analytics_check_job j = true) ∧
    (∀ (q : List RqJob) (k : RqKey), fetch_job q k = none →
      get_analytics_check_job q k = none) ∧
    (∀ (q : List RqJob) (k : RqKey),
      (∀ j ∈ q, j.key = k → j.meta_job_type = none) →
      get_analytics_check_job q k = none) ∧
    (∀ (q : List RqJob) (inp : SchedInput) (now d : Time),
      ∀ j ∈ schedule_analytics_report_autoupdate_job q inp now d,
        j ∈ q ∨ j.meta_job_type = none) ∧
    (∀ (q : List RqJob) (jobId taskId projId : Option Nat) (uid rq_id : Nat),
      schedule_analytics_check_job q jobId taskId projId uid rq_id =
        (q ++ [⟨.uuidK rq_id, none, ⟨jobId, taskId, projId⟩, some uid,
          some RQ_CUSTOM_ANALYTICS_CHECK_JOB_TYPE⟩], .uuidK rq_id)) := by
  refine ⟨?_, ?_, ?_, ?_, fun _ _ _ _ _ _ => rfl⟩
  · intro q k j
    cases hf : fetch_job q k with
    | none =>
        have hred : get_analytics_check_job q k = none := by
          unfold get_analytics_check_job
          rw [hf]
        rw [hred]
        simp
    | some j0 =>
        have hred : get_analytics_check_job q k =
            if is_custom_analytics_check_job j0 then some j0 else none := by
          unfold get_analytics_check_job
          rw [hf]
        rw [hred]
        by_cases hc : is_custom_analytics_check_job j0
        · rw [if_pos hc]
          constructor
          · intro h
            injection h with h
            subst h
            exact ⟨rfl, hc⟩
          · rintro ⟨h, _⟩
            exact h
        · rw [if_neg hc]
          constructor
          · intro h; cases h
          · rintro ⟨h, hcj⟩
            injection h with h
            subst h
            exact absurd hcj hc
  · intro q k hf
    unfold get_analytics_check_job
    rw [hf]
  · intro q k hmeta
    cases hf : fetch_job q k with
    | none =>
        unfold get_analytics_check_job
        rw [hf]
    | some j0 =>
        have hjq : j0 ∈ q := List.mem_of_find?_eq_some hf
        have hkey : j0.key = k := by
          have := List.find?_some hf
          simpa using this
        have hm := hmeta j0 hjq hkey
        have hc : is_custom_analytics_check_job j0 = false := by
          unfold is_custom_analytics_check_job
          rw [hm]
        have hred : get_analytics_check_job q k =
            if is_custom_analytics_check_job j0 then some j0 else none := by
          unfold get_analytics_check_job
          rw [hf]
        rw [hred, if_neg (by rw [hc]; exact Bool.false_ne_true)]
  · intro q inp now d j hj
    rw [schedule_eq] at hj
    by_cases hmem : resolved_key q inp now d ∈ pending_key_ids q (now + d)
    · rw [if_pos hmem] at hj
      exact .inl hj
    · rw [if_neg hmem] at hj
      unfold enqueue_at at hj
      by_cases hany : (q.any (fun jj =>
          decide (jj.key = RqKey.periodic (resolved_key q inp now d)))) = true
      · rw [if_pos hany] at hj
        exact .inl hj
      · rw [if_neg hany] at hj
        rcases List.mem_append.mp hj with h | h
        · exact .inl h
        · rcases List.mem_singleton.mp h with rfl
          exact .inr rfl

/-- C9 witness: a queue holding one periodic job and one tagged on-demand
job: the periodic key is filtered out, the tagged key is returned. -/
theorem C9_witness :
    (∀ j ∈ [RqJob.mk (.periodic ⟨.taskK, 1, .initial⟩) (some 10) ⟨none, some 1, none⟩ none none],
      j.key = RqKey.periodic ⟨.taskK, 1, .initial⟩ → j.meta_job_type = none) ∧
    get_analytics_check_job
      [RqJob.mk (.periodic ⟨.taskK, 1, .initial⟩) (some 10) ⟨none, some 1, none⟩ none none]
      (RqKey.periodic ⟨.taskK, 1, .initial⟩) = none :=
  ⟨by decide,
    C9_theorem.2.2.1
      [RqJob.mk (.periodic ⟨.taskK, 1, .initial⟩) (some 10) ⟨none, some 1, none⟩ none none]
      (RqKey.periodic ⟨.taskK, 1, .initial⟩) (by decide)⟩

/-! ### C5 -/

/-- C5: for an entity whose report satisfies
`created_date >= updated_date`, the compute functions perform no metric
computation (the result does not depend on the metric environment at all)
and return the stored report with the store untouched. -/
theorem C5_theorem (env : MetricEnv) (now : Time) (st : ReportStore) :
    (∀ (j : DBJob) (r : AnalyticsReportRec), st.jobReports j.id = some r →
      j.updated_date ≤ r.created_date →
      compute_report_for_job env now st j = (st, Except.ok r)) ∧
    (∀ (t : DBTask) (r : AnalyticsReportRec), st.taskReports t.id = some r →
      t.updated_date ≤ r.created_date →
      compute_report_for_task env now st t = (st, Except.ok r)) ∧
    (∀ (p : DBProject) (r : AnalyticsReportRec), st.projectReports p.id = some r →
      p.updated_date ≤ r.created_date →
      compute_report_for_project env now st p = (st, Except.ok r)) := by
  refine ⟨?_, ?_, ?_⟩
  · intro j r h hle
    have hred : compute_report_for_job env now st j =
        if r.created_date < j.updated_date then
          match recompute_job_statistics env j with
          | .error e => (st, .error e)
          | .ok stats => (setJobReport st j.id ⟨now, stats⟩, .ok ⟨now, stats⟩)
        else (st, .ok r) := by
      unfold compute_report_for_job
      rw [h]
    rw [hred, if_neg (not_lt.mpr hle)]
  · intro t r h hle
    have hred : compute_report_for_task env now st t =
        if r.created_date < t.updated_date then task_recompute_branch env now st t
        else (st, .ok r) := by
      unfold compute_report_for_task
      rw [h]
    rw [hred, if_neg (not_lt.mpr hle)]
  · intro p r h hle
    have hred : compute_report_for_project env now st p =
        if r.created_date < p.updated_date then project_recompute_branch env now st p
        else (st, .ok r) := by
      unfold compute_report_for_project
      rw [h]
    rw [hred, if_neg (not_lt.mpr hle)]

/-- C5 witness: a fresh job report (created at 10, job updated at 5) is
returned unchanged, for an arbitrary non-trivial metric environment. -/
theorem C5_witness :
    (ReportStore.mk (fun i => if i = 1 then some ⟨10, []⟩ else none)
        (fun _ => none) (fun _ => none)).jobReports 1 = some ⟨10, []⟩ ∧
    compute_report_for_job failEnv 50
        (ReportStore.mk (fun i => if i = 1 then some ⟨10, []⟩ else none)
          (fun _ => none) (fun _ => none)) ⟨1, 5⟩ =
      (ReportStore.mk (fun i => if i = 1 then some ⟨10, []⟩ else none)
        (fun _ => none) (fun _ => none), Except.ok ⟨10, []⟩) :=
  ⟨rfl,
    (C5_theorem failEnv 50
      (ReportStore.mk (fun i => if i = 1 then some ⟨10, []⟩ else none)
        (fun _ => none) (fun _ => none))).1 ⟨1, 5⟩ ⟨10, []⟩ rfl (by decide)⟩

/-! ### C6 -/

theorem get_statistics_entry_ok (so : StatisticsObject) (d : Dataseries)
    (h : so.calcResult = .ok d) : get_statistics_entry so = .ok (entryOf so d) := by
  unfold get_statistics_entry entryOf
  rw [h]

theorem ReportStore_eq (a b : ReportStore) (h1 : a.jobReports = b.jobReports)
    (h2 : a.taskReports = b.taskReports) (h3 : a.projectReports = b.projectReports) :
    a = b := by
  cases a
  cases b
  cases h1
  cases h2
  cases h3
  rfl

theorem setJobReport_setJobReport (st : ReportStore) (i : Nat) (r r' : AnalyticsReportRec) :
    setJobReport (setJobReport st i r) i r' = setJobReport st i r' := by
  refine ReportStore_eq _ _ ?_ rfl rfl
  funext k
  by_cases h : k = i <;> simp [setJobReport, h]

theorem recompute_job_statistics_ok (env : MetricEnv) (j : DBJob)
    (o s tm tas toc : Dataseries)
    (ho : (env.JobObjects j).calcResult = .ok o)
    (hs : (env.JobAnnotationSpeed j).calcResult = .ok s)
    (ht : (env.JobAnnotationTime j).calcResult = .ok tm)
    (htas : (env.JobTotalAnnotationSpeed j
      (entryOf (env.JobAnnotationSpeed j) s)).calcResult = .ok tas)
    (htoc : (env.JobTotalObjectCount j
      (entryOf (env.JobAnnotationSpeed j) s)).calcResult = .ok toc) :
    recompute_job_statistics env j =
      .ok [(.objects, entryOf (env.JobObjects j) o),
        (.annotation_speed, entryOf (env.JobAnnotationSpeed j) s),
        (.annotation_time, entryOf (env.JobAnnotationTime j) tm),
        (.total_annotation_speed,
          entryOf (env.JobTotalAnnotationSpeed j (entryOf (env.JobAnnotationSpeed j) s)) tas),
        (.total_object_count,
          entryOf (env.JobTotalObjectCount j (entryOf (env.JobAnnotationSpeed j) s)) toc)] := by
  unfold recompute_job_statistics
  simp only [get_statistics_entry_ok _ _ ho, get_statistics_entry_ok _ _ hs,
    get_statistics_entry_ok _ _ ht, get_statistics_entry_ok _ _ htas,
    get_statistics_entry_ok _ _ htoc]

/-- C6: for a job with no existing report whose metrics all succeed,
`_compute_report_for_job` creates and persists a report dated `now` whose
statistics mapping has exactly the five entries, each carrying the
corresponding metric's `calculate()` result as its dataseries, with both
derived metrics fed the `annotation_speed` primary entry just computed. -/
theorem C6_theorem (env : MetricEnv) (now : Time) (st : ReportStore) (j : DBJob)
    (o s tm tas toc : Dataseries)
    (habs : st.jobReports j.id = none)
    (ho : (env.JobObjects j).calcResult = .ok o)
    (hs : (env.JobAnnotationSpeed j).calcResult = .ok s)
    (ht : (env.JobAnnotationTime j).calcResult = .ok tm)
    (htas : (env.JobTotalAnnotationSpeed j
      (entryOf (env.JobAnnotationSpeed j) s)).calcResult = .ok tas)
    (htoc : (env.JobTotalObjectCount j
      (entryOf (env.JobAnnotationSpeed j) s)).calcResult = .ok toc) :
    compute_report_for_job env now st j =
      (setJobReport st j.id
        ⟨now, [(.objects, entryOf (env.JobObjects j) o),
          (.annotation_speed, entryOf (env.JobAnnotationSpeed j) s),
          (.annotation_time, entryOf (env.JobAnnotationTime j) tm),
          (.total_annotation_speed,
            entryOf (env.JobTotalAnnotationSpeed j (entryOf (env.JobAnnotationSpeed j) s)) tas),
          (.total_object_count,
            entryOf (env.JobTotalObjectCount j (entryOf (env.JobAnnotationSpeed j) s)) toc)]⟩,
       Except.ok
        ⟨now, [(.objects, entryOf (env.JobObjects j) o),
          (.annotation_speed, entryOf (env.JobAnnotationSpeed j) s),
          (.annotation_time, entryOf (env.JobAnnotationTime j) tm),
          (.total_annotation_speed,
            entryOf (env.JobTotalAnnotationSpeed j (entryOf (env.JobAnnotationSpeed j) s)) tas),
          (.total_object_count,
            entryOf (env.JobTotalObjectCount j (entryOf (env.JobAnnotationSpeed j) s)) toc)]⟩) := by
  have hred : compute_report_for_job env now st j =
      (match recompute_job_statistics env j with
        | .error e => (setJobReport st j.id ⟨now, []⟩, .error e)
        | .ok stats => (setJobReport (setJobReport st j.id ⟨now, []⟩) j.id ⟨now, stats⟩,
            .ok ⟨now, stats⟩)) := by
    unfold compute_report_for_job
    rw [habs]
  rw [hred, recompute_job_statistics_ok env j o s tm tas toc ho hs ht htas htoc]
  simp only [setJobReport_setJobReport]

/-- C6 witness: a concrete never-computed job under an environment with
distinct metric outputs. -/
theorem C6_witness :
    emptyStore.jobReports 1 = none ∧
    compute_report_for_job tagEnv 50 emptyStore ⟨1, 5⟩ =
      (setJobReport emptyStore 1
        ⟨50, [(.objects, entryOf (tagEnv.JobObjects ⟨1, 5⟩) 0),
          (.annotation_speed, entryOf (tagEnv.JobAnnotationSpeed ⟨1, 5⟩) 0),
          (.annotation_time, entryOf (tagEnv.JobAnnotationTime ⟨1, 5⟩) 0),
          (.total_annotation_speed,
            entryOf (tagEnv.JobTotalAnnotationSpeed ⟨1, 5⟩
              (entryOf (tagEnv.JobAnnotationSpeed ⟨1, 5⟩) 0)) 0),
          (.total_object_count,
            entryOf (tagEnv.JobTotalObjectCount ⟨1, 5⟩
              (entryOf (tagEnv.JobAnnotationSpeed ⟨1, 5⟩) 0)) 0)]⟩,
       Except.ok
        ⟨50, [(.objects, entryOf (tagEnv.JobObjects ⟨1, 5⟩) 0),
          (.annotation_speed, entryOf (tagEnv.JobAnnotationSpeed ⟨1, 5⟩) 0),
          (.annotation_time, entryOf (tagEnv.JobAnnotationTime ⟨1, 5⟩) 0),
          (.total_annotation_speed,
            entryOf (tagEnv.JobTotalAnnotationSpeed ⟨1, 5⟩
              (entryOf (tagEnv.JobAnnotationSpeed ⟨1, 5⟩) 0)) 0),
          (.total_object_count,
            entryOf (tagEnv.JobTotalObjectCount ⟨1, 5⟩
              (entryOf (tagEnv.JobAnnotationSpeed ⟨1, 5⟩) 0)) 0)]⟩) :=
  ⟨rfl, C6_theorem tagEnv 50 emptyStore ⟨1, 5⟩ 0 0 0 0 0 rfl rfl rfl rfl rfl rfl⟩

/-! ### C7 -/

theorem compute_report_for_job_frame (env : MetricEnv) (now : Time) (st : ReportStore)
    (j : DBJob) :
    ((compute_report_for_job env now st j).1).taskReports = st.taskReports ∧
    ((compute_report_for_job env now st j).1).projectReports = st.projectReports := by
  unfold compute_report_for_job
  constructor <;> (repeat' split) <;> rfl

theorem compute_jobs_loop_frame (env : MetricEnv) (now : Time) :
    ∀ (js : List DBJob) (st : ReportStore),
      ((compute_jobs_loop env now st js).1).taskReports = st.taskReports ∧
      ((compute_jobs_loop env now st js).1).projectReports = st.projectReports := by
  intro js
  induction js with
  | nil => intro st; exact ⟨rfl, rfl⟩
  | cons j rest ih =>
      intro st
      unfold compute_jobs_loop
      cases hcj : compute_report_for_job env now st j with
      | mk st1 res =>
          have hf := compute_report_for_job_frame env now st j
          rw [hcj] at hf
          cases res with
          | error e =>
              simp only [hcj]
              exact hf
          | ok r =>
              simp only [hcj]
              cases hrest : compute_jobs_loop env now st1 rest with
              | mk st2 res2 =>
                  have hf2 := ih st1
                  rw [hrest] at hf2
                  cases res2 with
                  | error e2 =>
                      simp only [hrest]
                      exact ⟨hf2.1.trans hf.1, hf2.2.trans hf.2⟩
                  | ok rs =>
                      simp only [hrest]
                      exact ⟨hf2.1.trans hf.1, hf2.2.trans hf.2⟩

theorem task_recompute_branch_proj_frame (env : MetricEnv) (now : Time) (st : ReportStore)
    (t : DBTask) :
    ((task_recompute_branch env now st t).1).projectReports = st.projectReports := by
  unfold task_recompute_branch
  cases hl : compute_jobs_loop env now st (t.segments.flatMap Segment.jobs) with
  | mk st2 res =>
      have hf := (compute_jobs_loop_frame env now (t.segments.flatMap Segment.jobs) st).2
      rw [hl] at hf
      cases res with
      | error e =>
          simp only [hl]
          exact hf
      | ok rs =>
          simp only [hl]
          cases hstat : recompute_task_statistics env t rs with
          | error e =>
              simp only [hstat]
              exact hf
          | ok stats =>
              simp only [hstat]
              exact hf

theorem compute_report_for_task_proj_frame (env : MetricEnv) (now : Time) (st : ReportStore)
    (t : DBTask) :
    ((compute_report_for_task env now st t).1).projectReports = st.projectReports := by
  unfold compute_report_for_task
  cases h : st.taskReports t.id with
  | some r =>
      simp only [h]
      by_cases hlt : r.created_date < t.updated_date
      · rw [if_pos hlt]
        exact task_recompute_branch_proj_frame env now st t
      · rw [if_neg hlt]
  | none =>
      simp only [h]
      exact task_recompute_branch_proj_frame env now _ t

theorem task_recompute_branch_error (env : MetricEnv) (now : Time) (st : ReportStore)
    (t : DBTask) (h : (task_recompute_branch env now st t).2 = .error ()) :
    ((task_recompute_branch env now st t).1).taskReports = st.taskReports := by
  have hf0 := (compute_jobs_loop_frame env now (t.segments.flatMap Segment.jobs) st).1
  unfold task_recompute_branch at h ⊢
  cases hl : compute_jobs_loop env now st (t.segments.flatMap Segment.jobs) with
  | mk st2 res =>
      rw [hl] at hf0
      cases res with
      | error e =>
          simp only [hl]
          exact hf0
      | ok rs =>
          simp only [hl] at h ⊢
          cases hstat : recompute_task_statistics env t rs with
          | error e =>
              simp only [hstat]
              exact hf0
          | ok stats =>
              simp only [hstat] at h
              exact absurd h (by simp)

theorem project_task_jobs_loop_proj_frame (env : MetricEnv) (now : Time) :
    ∀ (js : List DBJob) (st : ReportStore),
      ((project_task_jobs_loop env now st js).1).projectReports = st.projectReports := by
  intro js
  induction js with
  | nil => intro st; rfl
  | cons j rest ih =>
      intro st
      unfold project_task_jobs_loop
      cases hr : st.jobReports j.id with
      | none => simp only [hr]
      | some r0 =>
          simp only [hr]
          cases hcj : compute_report_for_job env now st j with
          | mk st1 res =>
              have hf := (compute_report_for_job_frame env now st j).2
              rw [hcj] at hf
              cases res with
              | error e =>
                  simp only [hcj]
                  exact hf
              | ok r =>
                  simp only [hcj]
                  cases hrest : project_task_jobs_loop env now st1 rest with
                  | mk st2 res2 =>
                      have hf2 := ih st1
                      rw [hrest] at hf2
                      cases res2 with
                      | error e2 =>
                          simp only [hrest]
                          exact hf2.trans hf
                      | ok rs =>
                          simp only [hrest]
                          exact hf2.trans hf

theorem project_tasks_loop_proj_frame (env : MetricEnv) (now : Time) :
    ∀ (ts : List DBTask) (st : ReportStore),
      ((project_tasks_loop env now st ts).1).projectReports = st.projectReports := by
  intro ts
  induction ts with
  | nil => intro st; rfl
  | cons t rest ih =>
      intro st
      unfold project_tasks_loop
      cases hct : compute_report_for_task env now st t with
      | mk st1 res =>
          have hf := compute_report_for_task_proj_frame env now st t
          rw [hct] at hf
          cases res with
          | error e =>
              simp only [hct]
              exact hf
          | ok r0 =>
              simp only [hct]
              cases hjl : project_task_jobs_loop env now st1 (t.segments.flatMap Segment.jobs) with
              | mk st2 res2 =>
                  have hf2 := project_task_jobs_loop_proj_frame env now
                    (t.segments.flatMap Segment.jobs) st1
                  rw [hjl] at hf2
                  cases res2 with
                  | error e2 =>
                      simp only [hjl]
                      exact hf2.trans hf
                  | ok rs =>
                      simp only [hjl]
                      cases hrest : project_tasks_loop env now st2 rest with
                      | mk st3 res3 =>
                          have hf3 := ih st2
                          rw [hrest] at hf3
                          cases res3 with
                          | error e3 =>
                              simp only [hrest]
                              exact (hf3.trans hf2).trans hf
                          | ok rs2 =>
                              simp only [hrest]
                              exact (hf3.trans hf2).trans hf

theorem project_recompute_branch_error (env : MetricEnv) (now : Time) (st : ReportStore)
    (p : DBProject) (h : (project_recompute_branch env now st p).2 = .error ()) :
    ((project_recompute_branch env now st p).1).projectReports = st.projectReports := by
  have hf0 := project_tasks_loop_proj_frame env now p.tasks st
  unfold project_recompute_branch at h ⊢
  cases hl : project_tasks_loop env now st p.tasks with
  | mk st2 res =>
      rw [hl] at hf0
      cases res with
      | error e =>
          simp only [hl]
          exact hf0
      | ok rs =>
          simp only [hl] at h ⊢
          cases hlast : p.tasks.getLast? with
          | none =>
              simp only [hlast]
              exact hf0
          | some lt2 =>
              simp only [hlast] at h ⊢
              cases hstat : recompute_project_statistics env p lt2 rs with
              | error e =>
                  simp only [hstat]
                  exact hf0
              | ok stats =>
                  simp only [hstat] at h
                  exact absurd h (by simp)

/-- C7 counterexample: for a job whose report is absent at the start of the
call, `_compute_report_for_job` first creates and persists an empty report;
when a metric then raises, that empty report record remains persisted —
so it is not true that "nothing new is left persisted" for such an
entity. -/
theorem C7_counterexample :
    emptyStore.jobReports 1 = none ∧
    (compute_report_for_job failEnv 50 emptyStore ⟨1, 5⟩).2 = .error () ∧
    ((compute_report_for_job failEnv 50 emptyStore ⟨1, 5⟩).1).jobReports 1 =
      some ⟨50, []⟩ :=
  ⟨rfl, rfl, rfl⟩

/-- C7 (amended): when any metric raises during recomputation, the compute
call returns an error and no partial statistics are persisted for the
entity: a job with a pre-existing report leaves the whole store untouched,
and a task or project with a pre-existing report keeps that exact report;
for a job whose report was absent at the start, however, an empty report
record (empty statistics, dated `now`) has been created and persisted
before the computation and remains after the failure. -/
theorem C7_theorem (env : MetricEnv) (now : Time) (st : ReportStore) :
    (∀ (j : DBJob) (r : AnalyticsReportRec), st.jobReports j.id = some r →
      (compute_report_for_job env now st j).2 = .error () →
      (compute_report_for_job env now st j).1 = st) ∧
    (∀ (t : DBTask) (r : AnalyticsReportRec), st.taskReports t.id = some r →
      (compute_report_for_task env now st t).2 = .error () →
      ((compute_report_for_task env now st t).1).taskReports t.id = some r) ∧
    (∀ (p : DBProject) (r : AnalyticsReportRec), st.projectReports p.id = some r →
      (compute_report_for_project env now st p).2 = .error () →
      ((compute_report_for_project env now st p).1).projectReports p.id = some r) ∧
    (∀ (j : DBJob), st.jobReports j.id = none →
      (compute_report_for_job env now st j).2 = .error () →
      ((compute_report_for_job env now st j).1).jobReports j.id = some ⟨now, []⟩) := by
  refine ⟨?_, ?_, ?_, ?_⟩
  · intro j r hr herr
    unfold compute_report_for_job at herr ⊢
    simp only [hr] at herr ⊢
    by_cases hlt : r.created_date < j.updated_date
    · rw [if_pos hlt] at herr ⊢
      cases hstat : recompute_job_statistics env j with
      | error e => simp only [hstat]
      | ok stats =>
          simp only [hstat] at herr
          exact absurd herr (by simp)
    · rw [if_neg hlt] at herr ⊢
  · intro t r hr herr
    unfold compute_report_for_task at herr ⊢
    simp only [hr] at herr ⊢
    by_cases hlt : r.created_date < t.updated_date
    · rw [if_pos hlt] at herr ⊢
      rw [task_recompute_branch_error env now st t herr]
      exact hr
    · rw [if_neg hlt] at herr ⊢
      exact hr
  · intro p r hr herr
    unfold compute_report_for_project at herr ⊢
    simp only [hr] at herr ⊢
    by_cases hlt : r.created_date < p.updated_date
    · rw [if_pos hlt] at herr ⊢
      rw [project_recompute_branch_error env now st p herr]
      exact hr
    · rw [if_neg hlt] at herr ⊢
      exact hr
  · intro j hr herr
    unfold compute_report_for_job at herr ⊢
    simp only [hr] at herr ⊢
    cases hstat : recompute_job_statistics env j with
    | error e =>
        simp only [hstat]
        simp [setJobReport]
    | ok stats =>
        simp only [hstat] at herr
        exact absurd herr (by simp)

/-- C7 witness: a stale job with a pre-existing report and a raising
metric: the call errors and the store is untouched. -/
theorem C7_witness :
    (ReportStore.mk (fun i => if i = 1 then some ⟨1, []⟩ else none)
        (fun _ => none) (fun _ => none)).jobReports 1 = some ⟨1, []⟩ ∧
    (compute_report_for_job failEnv 50
        (ReportStore.mk (fun i => if i = 1 then some ⟨1, []⟩ else none)
          (fun _ => none) (fun _ => none)) ⟨1, 5⟩).2 = .error () ∧
    (compute_report_for_job failEnv 50
        (ReportStore.mk (fun i => if i = 1 then some ⟨1, []⟩ else none)
          (fun _ => none) (fun _ => none)) ⟨1, 5⟩).1 =
      ReportStore.mk (fun i => if i = 1 then some ⟨1, []⟩ else none)
        (fun _ => none) (fun _ => none) :=
  ⟨rfl, rfl,
    (C7_theorem failEnv 50
      (ReportStore.mk (fun i => if i = 1 then some ⟨1, []⟩ else none)
        (fun _ => none) (fun _ => none))).1 ⟨1, 5⟩ ⟨1, []⟩ rfl rfl⟩

/-! ### C8 -/

/-- C8: evaluating `_compute_report_for_project` on a stale project (id 10)
with one task (id 20) under a metric environment whose project-level
metrics report the id of the row object they were constructed from: the
`objects` aggregate is built from the project (dataseries 10), but
`annotation_speed`, `annotation_time`, `total_annotation_speed` and
`total_object_count` are built from the last-iterated task (dataseries 20,
the task's id), not from the project itself — the `db_task` loop variable
is passed where `db_project` is intended (source lines 295-298). -/
theorem C8_theorem :
    ((compute_report_for_project tagEnv 50 emptyStore projC).1).projectReports 10 =
      some ⟨50,
        [(.objects, ⟨"t", "d", "g", "v", "tr", 10⟩),
          (.annotation_speed, ⟨"t", "d", "g", "v", "tr", 20⟩),
          (.annotation_time, ⟨"t", "d", "g", "v", "tr", 20⟩),
          (.total_annotation_speed, ⟨"t", "d", "g", "v", "tr", 20⟩),
          (.total_object_count, ⟨"t", "d", "g", "v", "tr", 20⟩)]⟩ ∧
    projC.id = 10 ∧
    projC.tasks.getLast? = some taskC ∧
    taskC.id = 20 ∧
    entTag (.fromProject projC) = 10 ∧
    entTag (.fromTask taskC) = 20 ∧
    (20 : Dataseries) ≠ 10 := by
  refine ⟨?_, rfl, rfl, rfl, rfl, rfl, by decide⟩
  rfl
